import Mathlib

/-!
Verification development for the AI-APP repository (a TypeScript application
that turns an uploaded image/video into a story paragraph, offers structured
suggestions, a chat assistant, and audio narration).

The definitions below are a shallow embedding of the relevant source code:
  * `src/services/geminiService.ts`: `encode`/`decode` (btoa/atob based
    base64), `decodeAudioData` (raw PCM to multi-channel float buffer),
    and the three request builders (`generateStoryFromMedia`,
    `generateStorySuggestions`, `chatWithStoryAssistant`).
  * `src/components/ChatBot.tsx`: conversation state and `handleSend`.
  * the App component (`handleAnalyze`, `handleReadAloud`).

Modelling conventions:
  * JS byte values are `Nat` (always `< 256` when they come from a
    `Uint8Array`); 16-bit samples are `Int`.
  * Float values produced by the PCM decoder are modelled as `ℚ`.  Every
    value the decoder produces is `int16 / 32768` with `|int16| ≤ 32768`,
    which is exactly representable in binary32/binary64, so rational
    arithmetic is exact here (no rounding is abstracted away).
  * JS `null`/`undefined` string parameters are `Option String`; JS
    truthiness of a string (`null`, `undefined` and `""` are falsy) is
    `jsTruthy`.
  * Fallible operations return `Except String α` or `Option α`; a JS
    exception is the `.error`/`none` branch.
-/

/-- Truthiness of a JS `string | null | undefined` value: `null`/`undefined`
and the empty string are falsy, every other string is truthy. -/
def jsTruthy : Option String → Bool
  | none => false
  | some s => s ≠ ""

/-! ### `String.prototype.split` with a one-character separator

`base64Data.split(',')` splits on every occurrence of `,`; `"".split(',')`
is `[""]`, and a trailing separator yields a trailing empty segment. -/

/-- Accumulator worker for `jsSplit`: `acc` holds the current segment in
reverse order. -/
def jsSplitAux (sep : Char) : List Char → List Char → List (List Char)
  | [], acc => [acc.reverse]
  | c :: rest, acc =>
    if c = sep then acc.reverse :: jsSplitAux sep rest []
    else jsSplitAux sep rest (c :: acc)

/-- JS `s.split(sep)` for a single-character separator. -/
def jsSplit (s : String) (sep : Char) : List String :=
  (jsSplitAux sep s.toList []).map (fun cs => String.mk cs)

/-- The `data:` URL payload extraction used by all three request builders:
`base64Data.split(',')[1]`.  `List.get? 1` models the JS indexing, which is
`undefined` (here `none`) when fewer than two segments exist. -/
def dataField (s : String) : Option String :=
  (jsSplit s ',').get? 1

/-! ### BinaryTextCodec: `encode` / `decode` (btoa / atob)

`encode` builds a binary string whose char codes are the byte values and
applies `btoa`; `decode` applies `atob` and reads the char codes back.
Both steps at the string boundary are the identity on the byte values, so
we model `encode` as bytes → base64 char list and `decode` as base64 char
list → bytes.  `atob` follows the WHATWG forgiving-base64 algorithm:
strip ASCII whitespace, strip up to two trailing `=` when the length is a
multiple of 4, fail on length `≡ 1 (mod 4)` or on any character outside
the alphabet, then convert sextets to bytes (dropping leftover bits). -/

/-- The base64 alphabet, in index order. -/
def b64Alphabet : List Char :=
  "ABCDEFGHIJKLMNOPQRSTUVWXYZabcdefghijklmnopqrstuvwxyz0123456789+/".toList

/-- Character for a sextet value (only used with arguments `< 64`). -/
def encChar (n : Nat) : Char := b64Alphabet.getD n '?'

/-- Model of `btoa` on a binary string given by its char codes: groups of three
bytes become four alphabet characters; a final group of one or two bytes
is padded with `=`. -/
def encode : List Nat → List Char
  | [] => []
  | [a] => [encChar (a / 4), encChar (a % 4 * 16), '=', '=']
  | [a, b] => [encChar (a / 4), encChar (a % 4 * 16 + b / 16), encChar (b % 16 * 4), '=']
  | a :: b :: c :: rest =>
    encChar (a / 4) :: encChar (a % 4 * 16 + b / 16) ::
      encChar (b % 16 * 4 + c / 64) :: encChar (c % 64) :: encode rest

/-- ASCII whitespace as stripped by forgiving-base64: TAB, LF, FF, CR,
SPACE. -/
def isB64Ws (c : Char) : Bool :=
  c.toNat = 9 || c.toNat = 10 || c.toNat = 12 || c.toNat = 13 || c.toNat = 32

/-- Sextet value of an alphabet character, `none` outside the alphabet. -/
def sextetOf (c : Char) : Option Nat :=
  let i := b64Alphabet.findIdx (fun a => a = c)
  if i < 64 then some i else none

/-- Remove up to two trailing `=` characters. -/
def dropTrailingEq (t : List Char) : List Char :=
  if t.getLast? = some '=' then
    let t1 := t.dropLast
    if t1.getLast? = some '=' then t1.dropLast else t1
  else t

/-- Convert a sextet stream to bytes: each full group of four sextets
yields three bytes; a final group of two or three sextets yields one or
two bytes (the leftover low bits are dropped). -/
def sextetsToBytes : List Nat → List Nat
  | s1 :: s2 :: s3 :: s4 :: rest =>
    (s1 * 4 + s2 / 16) :: (s2 % 16 * 16 + s3 / 4) :: (s3 % 4 * 64 + s4) ::
      sextetsToBytes rest
  | [s1, s2] => [s1 * 4 + s2 / 16]
  | [s1, s2, s3] => [s1 * 4 + s2 / 16, s2 % 16 * 16 + s3 / 4]
  | _ => []

/-- Model of `atob` (forgiving-base64 decode); `none` models the
`InvalidCharacterError` throw. -/
def atob (s : List Char) : Option (List Nat) :=
  let t0 := s.filter (fun c => !isB64Ws c)
  let t := if t0.length % 4 = 0 then dropTrailingEq t0 else t0
  if t.length % 4 = 1 then none
  else if t.all (fun c => (sextetOf c).isSome) then
    some (sextetsToBytes (t.map (fun c => (sextetOf c).getD 0)))
  else none

/-- Model of `decode` from the source: `atob` followed by reading the char codes of
the result string into a `Uint8Array`, i.e. the byte list itself. -/
def decode (s : List Char) : Option (List Nat) := atob s

/-! ### PCMAudioDecoder: `decodeAudioData`

`decodeAudioData(data, ctx, sampleRate, numChannels)`:
  * `new Int16Array(data.buffer)` reinterprets the bytes pairwise as
    little-endian signed 16-bit integers, and throws a `RangeError` when
    the byte length is odd;
  * `frameCount = dataInt16.length / numChannels` is JS real division;
  * `ctx.createBuffer(numChannels, frameCount, sampleRate)` converts the
    possibly fractional `frameCount` with the WebIDL `ToUint32`
    conversion, i.e. truncation to `⌊N / C⌋` (for `C = 0` the JS quotient
    is Infinity and `ToUint32` yields 0, agreeing with Nat division); per
    the Web Audio specification `createBuffer` throws `NotSupportedError`
    when any argument is zero or outside its supported range — a channel
    count outside 1..32 (the guaranteed-supported range), a converted
    frame count of 0, or a sample rate outside the nominal range
    8000..96000 Hz (the app always calls it with 24000 Hz mono, inside
    every range); on success the allocation is a zero-filled buffer;
  * the inner loop `for (let i = 0; i < frameCount; i++)` iterates while
    `i < N / C` over the rationals, i.e. `⌈N / C⌉` times; writes through
    `channelData[i]` beyond the `Float32Array` length are silently
    dropped (modelled by `List.set`, which is a no-op out of range), and
    the reads `dataInt16[i * numChannels + channel]` in those dropped
    iterations may be out of range (JS `undefined`, modelled by the
    irrelevant `getD` default since the corresponding write is dropped).
-/

/-- Little-endian signed 16-bit value from two byte values. -/
def int16OfBytes (lo hi : Nat) : Int :=
  let v := lo + 256 * hi
  if v % 65536 < 32768 then (v % 65536 : Int) else (v % 65536 : Int) - 65536

/-- The `Int16Array` view of an even-length byte list. -/
def toInt16List : List Nat → List Int
  | lo :: hi :: rest => int16OfBytes lo hi :: toInt16List rest
  | _ => []

/-- The sample at index `k` of the `Int16Array` view of `data` (the
`int16At` of the specification). -/
def int16At (data : List Nat) (k : Nat) : Int :=
  (toInt16List data).getD k 0

/-- The decoded result: an `AudioBuffer` holding one sample list per
channel. -/
structure AudioBuffer where
  sampleRate : Nat
  numberOfChannels : Nat
  channels : List (List ℚ)
deriving Repr, DecidableEq

/-- One channel filled by the inner loop of `decodeAudioData`: `iters`
loop iterations of `channelData[i] = dataInt16[i*numChannels+channel] /
32768.0` over an allocation of `frames` zeros. -/
def fillChannel (dataInt16 : List Int) (numChannels channel frames iters : Nat) :
    List ℚ :=
  (List.range iters).foldl
    (fun cd i => cd.set i ((dataInt16.getD (i * numChannels + channel) 0 : ℚ) / 32768))
    (List.replicate frames 0)

/-- Model of `decodeAudioData` from the source.  The first `.error`
branch is the `RangeError` thrown by the `Int16Array` constructor on an
odd byte length; the second is the `NotSupportedError` thrown by
`ctx.createBuffer` when (after the `ToUint32` conversion of the frame
count) any of its arguments is zero or outside its supported range. -/
def decodeAudioData (data : List Nat) (sampleRate numChannels : Nat) :
    Except String AudioBuffer :=
  if data.length % 2 ≠ 0 then
    Except.error "RangeError: byte length of Int16Array should be a multiple of 2"
  else
    let dataInt16 := toInt16List data
    let frames := dataInt16.length / numChannels
    let iters := (dataInt16.length + numChannels - 1) / numChannels
    if numChannels < 1 ∨ 32 < numChannels ∨ frames = 0 ∨
        sampleRate < 8000 ∨ 96000 < sampleRate then
      Except.error "NotSupportedError: createBuffer argument outside its supported range"
    else
      Except.ok
        { sampleRate := sampleRate
          numberOfChannels := numChannels
          channels := (List.range numChannels).map
            (fun channel => fillChannel dataInt16 numChannels channel frames iters) }

/-! ### StructuredResponseValidator: `JSON.parse` and the suggestion result

`generateStorySuggestions` ends with

    try { return JSON.parse(response.text || "[]"); } catch (e) { return []; }

There is no schema check after parsing: whatever `JSON.parse` produces is
returned unchanged; only a parse exception is converted to `[]`.

`JSON.parse` is modelled as a recursive-descent parser over the JSON
grammar (RFC 8259 / ECMA-404): whitespace is space, TAB, LF, CR; numbers
are `-? int frac? exp?` with a strict integer part; strings support the
`\" \\ \/ \b \f \n \r \t \uXXXX` escapes and reject raw control
characters below `0x20`.  Idealisations: numbers are kept as exact
rationals (JS rounds to binary64) and `\uXXXX` escapes are read through
`Char.ofNat` (JS strings admit lone surrogates); neither affects any
theorem below, which quantify over parse outcomes or use inputs far from
those corners.  Recursion is fuelled; the top-level call supplies fuel
`length + 1`, which dominates the nesting depth of any input. -/

/-- JSON values. -/
inductive Json where
  | null
  | bool (b : Bool)
  | num (q : ℚ)
  | str (s : String)
  | arr (elems : List Json)
  | obj (fields : List (String × Json))
deriving Repr

/-- JSON insignificant whitespace. -/
def isJsonWs (c : Char) : Bool :=
  c = ' ' || c.toNat = 9 || c.toNat = 10 || c.toNat = 13

/-- Skip insignificant whitespace. -/
def skipWs (cs : List Char) : List Char := cs.dropWhile (fun c => isJsonWs c)

/-- Decimal digit test (code points 48 to 57). -/
def isDigit (c : Char) : Bool :=
  48 ≤ c.toNat && c.toNat ≤ 57

/-- Hexadecimal digit value (0-9, a-f, A-F by code point ranges). -/
def hexVal (c : Char) : Option Nat :=
  let n := c.toNat
  if 48 ≤ n && n ≤ 57 then some (n - 48)
  else if 97 ≤ n && n ≤ 102 then some (n - 87)
  else if 65 ≤ n && n ≤ 70 then some (n - 55)
  else none

/-- Numeric value of one decimal digit character. -/
def digitVal (c : Char) : Nat := c.toNat - 48

/-- Value of a digit list (most significant first). -/
def digitsVal (ds : List Char) : Nat :=
  ds.foldl (fun acc c => 10 * acc + digitVal c) 0

/-- Parse the strict JSON integer part: `0`, or a nonzero digit followed
by digits. -/
def parseIntPart : List Char → Option (List Char × List Char)
  | '0' :: rest => some (['0'], rest)
  | c :: rest =>
    if isDigit c && c ≠ '0' then
      some (c :: rest.takeWhile isDigit, rest.dropWhile isDigit)
    else none
  | [] => none

/-- Parse an optional fraction part, returning its digits (empty when
absent). -/
def parseFracPart : List Char → Option (List Char × List Char)
  | '.' :: rest =>
    let ds := rest.takeWhile isDigit
    if ds.isEmpty then none else some (ds, rest.dropWhile isDigit)
  | cs => some ([], cs)

/-- Parse an optional exponent part, returning its signed value (0 when
absent). -/
def parseExpPart : List Char → Option (Int × List Char)
  | c :: rest =>
    if c = 'e' || c = 'E' then
      match rest with
      | '+' :: rest2 =>
        let ds := rest2.takeWhile isDigit
        if ds.isEmpty then none
        else some ((digitsVal ds : Int), rest2.dropWhile isDigit)
      | '-' :: rest2 =>
        let ds := rest2.takeWhile isDigit
        if ds.isEmpty then none
        else some (-(digitsVal ds : Int), rest2.dropWhile isDigit)
      | _ =>
        let ds := rest.takeWhile isDigit
        if ds.isEmpty then none
        else some ((digitsVal ds : Int), rest.dropWhile isDigit)
    else some (0, c :: rest)
  | [] => some (0, [])

/-- Parse a JSON number (after an optional leading `-` handled by the
caller), returning its exact rational value. -/
def parseNumber (neg : Bool) (cs : List Char) : Option (ℚ × List Char) := do
  let (ipart, cs1) ← parseIntPart cs
  let (fpart, cs2) ← parseFracPart cs1
  let (expv, cs3) ← parseExpPart cs2
  let mantissa : ℚ := (digitsVal (ipart ++ fpart) : ℚ) / (10 : ℚ) ^ fpart.length
  let magnitude : ℚ := mantissa * (10 : ℚ) ^ expv
  some (if neg then -magnitude else magnitude, cs3)

/-- Parse the body of a JSON string after the opening quote; `acc` holds
the chars read so far in reverse. -/
def parseStringBody : Nat → List Char → List Char → Option (String × List Char)
  | 0, _, _ => none
  | _ + 1, [], _ => none
  | fuel + 1, c :: rest, acc =>
    if c = '"' then some (String.mk acc.reverse, rest)
    else if c = '\\' then
      match rest with
      | e :: rest2 =>
        if e = '"' then parseStringBody fuel rest2 ('"' :: acc)
        else if e = '\\' then parseStringBody fuel rest2 ('\\' :: acc)
        else if e = '/' then parseStringBody fuel rest2 ('/' :: acc)
        else if e = 'b' then parseStringBody fuel rest2 (Char.ofNat 8 :: acc)
        else if e = 'f' then parseStringBody fuel rest2 (Char.ofNat 12 :: acc)
        else if e = 'n' then parseStringBody fuel rest2 ('\n' :: acc)
        else if e = 'r' then parseStringBody fuel rest2 (Char.ofNat 13 :: acc)
        else if e = 't' then parseStringBody fuel rest2 ('\t' :: acc)
        else if e = 'u' then
          match rest2 with
          | h1 :: h2 :: h3 :: h4 :: rest3 => do
            let v1 ← hexVal h1
            let v2 ← hexVal h2
            let v3 ← hexVal h3
            let v4 ← hexVal h4
            parseStringBody fuel rest3
              (Char.ofNat (v1 * 4096 + v2 * 256 + v3 * 16 + v4) :: acc)
          | _ => none
        else none
      | [] => none
    else if c.toNat < 32 then none
    else parseStringBody fuel rest (c :: acc)

mutual

/-- Parse one JSON value (fuelled). -/
def parseValue : Nat → List Char → Option (Json × List Char)
  | 0, _ => none
  | fuel + 1, cs =>
    match skipWs cs with
    | [] => none
    | c :: rest =>
      if c = 'n' then
        match rest with
        | 'u' :: 'l' :: 'l' :: rest2 => some (Json.null, rest2)
        | _ => none
      else if c = 't' then
        match rest with
        | 'r' :: 'u' :: 'e' :: rest2 => some (Json.bool true, rest2)
        | _ => none
      else if c = 'f' then
        match rest with
        | 'a' :: 'l' :: 's' :: 'e' :: rest2 => some (Json.bool false, rest2)
        | _ => none
      else if c = '"' then
        (parseStringBody (fuel + 1) rest []).map (fun p => (Json.str p.1, p.2))
      else if c = '-' then
        (parseNumber true rest).map (fun p => (Json.num p.1, p.2))
      else if isDigit c then
        (parseNumber false (c :: rest)).map (fun p => (Json.num p.1, p.2))
      else if c = '[' then
        match skipWs rest with
        | ']' :: rest2 => some (Json.arr [], rest2)
        | cs2 => parseElems fuel cs2 []
      else if c = '{' then
        match skipWs rest with
        | '}' :: rest2 => some (Json.obj [], rest2)
        | cs2 => parseMembers fuel cs2 []
      else none

/-- Parse the remaining elements of a nonempty array;
`acc` is reversed. -/
def parseElems : Nat → List Char → List Json → Option (Json × List Char)
  | 0, _, _ => none
  | fuel + 1, cs, acc => do
    let (v, cs1) ← parseValue fuel cs
    match skipWs cs1 with
    | ',' :: cs2 => parseElems fuel cs2 (v :: acc)
    | ']' :: cs2 => some (Json.arr (v :: acc).reverse, cs2)
    | _ => none

/-- Parse the remaining members of a nonempty object; `acc` is
reversed. -/
def parseMembers : Nat → List Char → List (String × Json) →
    Option (Json × List Char)
  | 0, _, _ => none
  | fuel + 1, cs, acc =>
    match skipWs cs with
    | '"' :: rest => do
      let (k, cs1) ← parseStringBody (fuel + 1) rest []
      match skipWs cs1 with
      | ':' :: cs2 => do
        let (v, cs3) ← parseValue fuel cs2
        match skipWs cs3 with
        | ',' :: cs4 => parseMembers fuel cs4 ((k, v) :: acc)
        | '}' :: cs4 => some (Json.obj ((k, v) :: acc).reverse, cs4)
        | _ => none
      | _ => none
    | _ => none

end

/-- Model of `JSON.parse`: parse one value and require only whitespace after it. -/
def jsonParse (s : String) : Option Json :=
  match parseValue (s.toList.length + 1) s.toList with
  | some (v, rest) => if skipWs rest = [] then some v else none
  | none => none

/-- The text handed to `JSON.parse` by `generateStorySuggestions`:
`response.text || "[]"` (the fallback applies when `response.text` is
`undefined` or the empty string). -/
def suggestionsEffectiveText (text : Option String) : String :=
  match text with
  | some s => if s = "" then "[]" else s
  | none => "[]"

/-- The value returned by `generateStorySuggestions` for a given raw
response text: `try { return JSON.parse(response.text || "[]"); }
catch (e) { return []; }`. -/
def generateStorySuggestionsResult (text : Option String) : Json :=
  match jsonParse (suggestionsEffectiveText text) with
  | some v => v
  | none => Json.arr []

/-! ### MultimodalRequestBuilder: request parts and contents

Request parts are text parts or inline-media parts.  The inline media
`data` field is `Option String` because the source computes it as
`base64Data.split(',')[1]`, which is JS `undefined` when the string has
no comma.  The fixed prompt texts are reproduced with the template
literal newlines and indentation normalised to single spaces (no theorem
below inspects the prompt wording). -/

/-- A request part: `{ text }` or `{ inlineData: { mimeType, data } }`. -/
inductive RequestPart where
  | text (s : String)
  | inlineData (mimeType : String) (data : Option String)
deriving Repr, DecidableEq

/-- Whether a part carries inline media. -/
def RequestPart.isInline : RequestPart → Bool
  | RequestPart.inlineData _ _ => true
  | _ => false

/-- A conversational content entry: `{ role, parts }`. -/
structure Content where
  role : String
  parts : List RequestPart
deriving Repr, DecidableEq

/-- The narrative-generation prompt of `generateStoryFromMedia`. -/
def generateStoryFromMediaPrompt (mimeType language : String) : String :=
  let mediaType := if mimeType.startsWith "video" then "video" else "image"
  "Analyze the mood, lighting, characters, and environment of this " ++ mediaType ++
    ". Ghostwrite a single, compelling opening paragraph for a literary story set in this world. Write the story in " ++
    language ++
    ". If Hindi, use poetic and literary Hindi (Devanagari script). Focus on sensory details and establishing a unique atmosphere. Do not provide commentary, just the paragraph."

/-- The `contents.parts` list built by `generateStoryFromMedia`:
`[mediaPart, { text: prompt }]`. -/
def generateStoryFromMediaParts (base64Data mimeType language : String) :
    List RequestPart :=
  [RequestPart.inlineData mimeType (dataField base64Data),
   RequestPart.text (generateStoryFromMediaPrompt mimeType language)]

/-- The suggestion prompt of `generateStorySuggestions`
(the optional-chained `startsWith` test is falsy when `mimeType` is null). -/
def suggestionPrompt (mimeType : Option String) (paragraph language : String) :
    String :=
  let isVideo := match mimeType with
    | some m => m.startsWith "video"
    | none => false
  let mediaType := if isVideo then "video" else "image"
  "Based on the provided " ++ mediaType ++
    " and the following opening paragraph: \"" ++ paragraph ++
    "\", generate 3 diverse creative suggestions to continue the story. Each suggestion should be short (1-2 sentences) and labeled as either \x27plot\x27, \x27character\x27, or \x27setting\x27. Write the suggestions in " ++
    language ++
    ". Return the output as a valid JSON array of objects with \"type\" and \"text\" fields."

/-- The `parts` list built by `generateStorySuggestions`: the prompt part,
with a media part unshifted in front when both `base64Data` and
`mimeType` are truthy. -/
def generateStorySuggestionsParts (base64Data mimeType : Option String)
    (paragraph language : String) : List RequestPart :=
  let prompt := RequestPart.text (suggestionPrompt mimeType paragraph language)
  if jsTruthy base64Data && jsTruthy mimeType then
    [RequestPart.inlineData (mimeType.getD "") (dataField (base64Data.getD "")), prompt]
  else [prompt]

/-- The `Type` enum values used by the response schema. -/
inductive SchemaType where
  | STRING
  | OBJECT
  | ARRAY
deriving Repr, DecidableEq

/-- Schema of one object property. -/
structure PropertySchema where
  type : SchemaType
  description : Option String
deriving Repr, DecidableEq

/-- Schema of the array items. -/
structure ItemSchema where
  type : SchemaType
  properties : List (String × PropertySchema)
  required : List String
deriving Repr, DecidableEq

/-- Schema of the response. -/
structure ArraySchema where
  type : SchemaType
  items : ItemSchema
deriving Repr, DecidableEq

/-- The `config` of the suggestion request. -/
structure SuggestionConfig where
  responseMimeType : String
  responseSchema : ArraySchema
deriving Repr, DecidableEq

/-- The `config` object passed by `generateStorySuggestions`. -/
def generateStorySuggestionsConfig : SuggestionConfig :=
  { responseMimeType := "application/json"
    responseSchema :=
      { type := SchemaType.ARRAY
        items :=
          { type := SchemaType.OBJECT
            properties :=
              [("type",
                { type := SchemaType.STRING
                  description := some "Must be \x27plot\x27, \x27character\x27, or \x27setting\x27" }),
               ("text", { type := SchemaType.STRING, description := none })]
            required := ["type", "text"] } } }

/-- The `contents` array built by `chatWithStoryAssistant`:
`[...history]` followed by one pushed user turn, with the media part
present only when both `base64Data` and `mimeType` are truthy. -/
def chatWithStoryAssistantContents (history : List Content) (message : String)
    (base64Data mimeType : Option String) : List Content :=
  if jsTruthy base64Data && jsTruthy mimeType then
    history ++
      [{ role := "user"
         parts := [RequestPart.inlineData (mimeType.getD "") (dataField (base64Data.getD "")),
                   RequestPart.text message] }]
  else
    history ++ [{ role := "user", parts := [RequestPart.text message] }]

/-- The new user turn appended by `chatWithStoryAssistant` (used to state
the request-shape theorem). -/
def newUserTurn (message : String) (base64Data mimeType : Option String) :
    Content :=
  if jsTruthy base64Data && jsTruthy mimeType then
    { role := "user"
      parts := [RequestPart.inlineData (mimeType.getD "") (dataField (base64Data.getD "")),
                RequestPart.text message] }
  else { role := "user", parts := [RequestPart.text message] }

/-! ### ConversationStateManager: the `ChatBot` component state

`ChatBot` seeds `messages` with one model turn and appends through
`setMessages(prev => [...prev, turn])`; `handleSend` maps the transcript
to `{ role, parts: [{ text }] }` entries before calling
`chatWithStoryAssistant`. -/

/-- Message speaker (the user/model union of `Message.role`). -/
inductive Role where
  | user
  | model
deriving Repr, DecidableEq

/-- A transcript entry. -/
structure Message where
  role : Role
  text : String
deriving Repr, DecidableEq

/-- The fixed seeded greeting. -/
def chatGreeting : String :=
  "Tell me more about this world. Should we dive deeper into the characters or describe the setting further?"

/-- The initial `messages` state of `ChatBot`. -/
def initialMessages : List Message := [{ role := Role.model, text := chatGreeting }]

/-- Append a user turn, as in the user-side `setMessages` call of `handleSend`. -/
def appendUser (ms : List Message) (t : String) : List Message :=
  ms ++ [{ role := Role.user, text := t }]

/-- Append a model turn, as in the model-side `setMessages` call of `handleSend`. -/
def appendModel (ms : List Message) (t : String) : List Message :=
  ms ++ [{ role := Role.model, text := t }]

/-- The JS string of a role. -/
def roleString : Role → String
  | Role.user => "user"
  | Role.model => "model"

/-- The history built in `handleSend`:
`messages.map(m => ({ role: m.role, parts: [{ text: m.text }] }))`. -/
def handleSendHistory (ms : List Message) : List Content :=
  ms.map (fun m => { role := roleString m.role, parts := [RequestPart.text m.text] })

/-! ### App story state and `handleAnalyze` -/

/-- The `AppLanguage` union from `types.ts`. -/
inductive AppLanguage where
  | English
  | Hindi
deriving Repr, DecidableEq

/-- The `StoryState` interface from `types.ts`.  The `suggestions` field is declared as
`StorySuggestion[]` in TypeScript, but at runtime it receives whatever
`generateStorySuggestions` returns (an unvalidated parsed JSON value), so
it is modelled as `Json`. -/
structure StoryState where
  image : Option String
  mediaMimeType : Option String
  paragraph : String
  title : String
  isAnalyzing : Bool
  isReading : Bool
  language : AppLanguage
  suggestions : Json
  isGeneratingSuggestions : Bool

/-- The placeholder paragraph set by `handleAnalyze` on failure. -/
def analyzeErrorParagraph : String := "The ink has run dry... Please try again."

/-- Model of `handleAnalyze` as a state transformer: the guard, the synchronous
update before the service call, and the resolution of
`generateStoryFromMedia` (`Except.error` is the caught rejection). -/
def handleAnalyze (s : StoryState) (serviceResult : Except Unit String) :
    StoryState :=
  if !jsTruthy s.image || !jsTruthy s.mediaMimeType then s
  else
    let s1 := { s with isAnalyzing := true, paragraph := "", suggestions := Json.arr [] }
    match serviceResult with
    | Except.ok p => { s1 with paragraph := p, isAnalyzing := false }
    | Except.error _ =>
      { s1 with isAnalyzing := false, paragraph := analyzeErrorParagraph }

/-! ### PlaybackController: `handleReadAloud` as a transition system

`handleReadAloud` returns early when `!state.paragraph || state.isReading`;
otherwise it sets `isReading`, awaits the narration call, and on success
stops `audioSourceRef.current` (if set), starts a fresh source whose
`onended` handler clears `isReading`, and stores it in the ref.  The
events of the transition system:

  * `click`    — the user triggers `handleReadAloud` (the synchronous part
                 up to the first `await`);
  * `resolve`  — the awaited narration/decoding succeeds and the `try`
                 body after the awaits runs;
  * `reject`   — the awaited call fails and the `catch` body runs;
  * `ended h`  — the playback primitive signals natural completion of a
                 playing source `h`, running its `onended` handler;
  * `flush`    — an `ended` event queued by an explicit `stop()` of a
                 still-playing source is delivered (Web Audio fires
                 `onended` for stopped sources too), running the handler.

`playing` is the set of started, not-yet-finished sources, `audioSource`
is `audioSourceRef.current` (never cleared by `onended`, so it can hold
an already-finished source), and fresh source handles are numbered by
`nextId`.  The `paragraph` flag is fixed for a run (paragraph edits are
outside this claim). -/

/-- Events of the narration transition system. -/
inductive NarrEvent where
  | click
  | resolve
  | reject
  | ended (h : Nat)
  | flush
deriving Repr, DecidableEq

/-- State of the narration transition system. -/
structure NarrState where
  paragraph : Bool
  isReading : Bool
  audioSource : Option Nat
  playing : List Nat
  pendingEnded : List Nat
  nextId : Nat
  inflight : Bool
deriving Repr, DecidableEq

/-- One step of the narration transition system. -/
def narrStep (s : NarrState) : NarrEvent → NarrState
  | NarrEvent.click =>
    if !s.paragraph || s.isReading then s
    else { s with isReading := true, inflight := true }
  | NarrEvent.resolve =>
    if !s.inflight then s
    else
      let s1 :=
        match s.audioSource with
        | some h =>
          if h ∈ s.playing then
            { s with playing := s.playing.erase h
                     pendingEnded := s.pendingEnded ++ [h] }
          else s
        | none => s
      { s1 with playing := s1.playing ++ [s.nextId]
                audioSource := some s.nextId
                nextId := s.nextId + 1
                inflight := false }
  | NarrEvent.reject =>
    if !s.inflight then s else { s with isReading := false, inflight := false }
  | NarrEvent.ended h =>
    if h ∈ s.playing then
      { s with playing := s.playing.erase h, isReading := false }
    else s
  | NarrEvent.flush =>
    match s.pendingEnded with
    | [] => s
    | _ :: rest => { s with pendingEnded := rest, isReading := false }

/-- The initial narration state. -/
def narrInit (paragraph : Bool) : NarrState :=
  { paragraph := paragraph
    isReading := false
    audioSource := none
    playing := []
    pendingEnded := []
    nextId := 0
    inflight := false }

/-- Run the narration transition system over an event trace. -/
def narrRun (paragraph : Bool) (evs : List NarrEvent) : NarrState :=
  evs.foldl narrStep (narrInit paragraph)

/-- Modelled from the claim wording, for comparison with `dataField` (this
definition follows the specification text, not the source): the substring
of the media string after its FIRST comma, `none` when there is no
comma. -/
def claimedDataField (s : String) : Option String :=
  if ',' ∈ s.toList then
    some (String.mk ((s.toList.dropWhile (fun c => c ≠ ',')).tail))
  else none

/-- Inductive invariant of the narration transition system: an in-flight
narration call implies `isReading` with nothing playing; no stop-queued
`ended` events ever exist (a playing source is never preempted); nothing
plays while `isReading` is false; everything playing is the current
`audioSourceRef` value; and at most one source plays at a time. -/
def NarrInv (s : NarrState) : Prop :=
  (s.inflight = true → s.isReading = true ∧ s.playing = []) ∧
  s.pendingEnded = [] ∧
  (s.isReading = false → s.playing = []) ∧
  (∀ h ∈ s.playing, s.audioSource = some h) ∧
  s.playing.length ≤ 1

/-! ### Helper views of `encode` output (used to prove the round-trip)

`encode b = bodyChars b ++ padding`, where `bodyChars` are the alphabet
characters and the padding is `padCount b` copies of `=`; `bodySextets`
is the sextet stream the body characters encode. -/

/-- The non-padding characters of `encode b`. -/
def bodyChars : List Nat → List Char
  | [] => []
  | [a] => [encChar (a / 4), encChar (a % 4 * 16)]
  | [a, b] => [encChar (a / 4), encChar (a % 4 * 16 + b / 16), encChar (b % 16 * 4)]
  | a :: b :: c :: rest =>
    encChar (a / 4) :: encChar (a % 4 * 16 + b / 16) ::
      encChar (b % 16 * 4 + c / 64) :: encChar (c % 64) :: bodyChars rest

/-- The sextet values encoded by `bodyChars`. -/
def bodySextets : List Nat → List Nat
  | [] => []
  | [a] => [a / 4, a % 4 * 16]
  | [a, b] => [a / 4, a % 4 * 16 + b / 16, b % 16 * 4]
  | a :: b :: c :: rest =>
    a / 4 :: (a % 4 * 16 + b / 16) :: (b % 16 * 4 + c / 64) :: c % 64 ::
      bodySextets rest

/-- Number of `=` padding characters `encode` appends. -/
def padCount : List Nat → Nat
  | [] => 0
  | [_] => 2
  | [_, _] => 1
  | _ :: _ :: _ :: rest => padCount rest

/-! ## Theorems -/

/-! ### PCM decoding (C1, C2) -/

theorem toInt16List_length : ∀ data : List Nat, (toInt16List data).length = data.length / 2
  | [] => rfl
  | [_] => by simp [toInt16List]
  | lo :: hi :: rest => by
    simp only [toInt16List, List.length_cons]
    rw [toInt16List_length rest]
    omega

theorem foldlSet_length (f : Nat → ℚ) :
    ∀ (m : Nat) (l : List ℚ),
      ((List.range m).foldl (fun cd i => cd.set i (f i)) l).length = l.length := by
  intro m
  induction m with
  | zero => intro l; rfl
  | succ m ih =>
    intro l
    rw [List.range_succ, List.foldl_append]
    simp only [List.foldl_cons, List.foldl_nil, List.length_set]
    exact ih l

theorem foldlSet_getElem (f : Nat → ℚ) :
    ∀ (m : Nat) (l : List ℚ) (j : Nat), j < l.length → j < m →
      ((List.range m).foldl (fun cd i => cd.set i (f i)) l)[j]? = some (f j) := by
  intro m
  induction m with
  | zero => intro l j _ h2; exact absurd h2 (Nat.not_lt_zero j)
  | succ m ih =>
    intro l j h1 h2
    rw [List.range_succ, List.foldl_append]
    simp only [List.foldl_cons, List.foldl_nil]
    by_cases hj : j = m
    · subst hj
      have hlen2 : j < ((List.range j).foldl (fun cd i => cd.set i (f i)) l).length := by
        rw [foldlSet_length f j l]
        exact h1
      exact List.getElem?_set_eq_of_lt _ hlen2
    · rw [List.getElem?_set_ne (fun h => hj h.symm)]
      exact ih l j h1 (by omega)

/-- Shared characterisation of `decodeAudioData` on an even-length buffer
of `N` samples holding at least one complete frame, with the channel
count and sample rate inside the ranges `createBuffer` supports: it
succeeds, produces `C` channels in interleave order, each of `⌊N / C⌋`
frames, and channel `c` frame `i` holds `int16At (i * C + c) / 32768`. -/
theorem decodeAudioData_spec (data : List Nat) (N sr C : Nat)
    (hlen : data.length = 2 * N) (hC : 0 < C) (hC32 : C ≤ 32)
    (hsrlo : 8000 ≤ sr) (hsrhi : sr ≤ 96000) (hNC : C ≤ N) :
    ∃ buf, decodeAudioData data sr C = Except.ok buf ∧
      buf.sampleRate = sr ∧
      buf.numberOfChannels = C ∧
      buf.channels.length = C ∧
      (∀ c, c < C → (buf.channels.getD c []).length = N / C) ∧
      (∀ c i, c < C → i < N / C →
        (buf.channels.getD c []).getD i 0 = (int16At data (i * C + c) : ℚ) / 32768) := by
  have heven : ¬ data.length % 2 ≠ 0 := by omega
  have hN : (toInt16List data).length = N := by rw [toInt16List_length, hlen]; omega
  have hfr : (toInt16List data).length / C = N / C := by rw [hN]
  have hle : N / C ≤ ((toInt16List data).length + C - 1) / C := by
    apply Nat.div_le_div_right
    omega
  have hcond : ¬ (C < 1 ∨ 32 < C ∨ (toInt16List data).length / C = 0 ∨
      sr < 8000 ∨ 96000 < sr) := by
    push_neg
    rw [hN]
    exact ⟨hC, hC32, (Nat.div_pos hNC hC).ne', hsrlo, hsrhi⟩
  have hch : ∀ c, c < C →
      ((List.range C).map (fun channel =>
        fillChannel (toInt16List data) C channel ((toInt16List data).length / C)
          (((toInt16List data).length + C - 1) / C))).getD c [] =
      fillChannel (toInt16List data) C c ((toInt16List data).length / C)
        (((toInt16List data).length + C - 1) / C) := by
    intro c hc
    rw [List.getD_eq_getElem?_getD, List.getElem?_map, List.getElem?_range hc]
    rfl
  have hdec : decodeAudioData data sr C = Except.ok
      { sampleRate := sr
        numberOfChannels := C
        channels := (List.range C).map (fun channel =>
          fillChannel (toInt16List data) C channel ((toInt16List data).length / C)
            (((toInt16List data).length + C - 1) / C)) } := by
    simp only [decodeAudioData]
    rw [if_neg heven, if_neg hcond]
  refine ⟨_, hdec, rfl, rfl, ?_, ?_, ?_⟩
  · simp
  · intro c hc
    rw [hch c hc]
    unfold fillChannel
    rw [foldlSet_length, List.length_replicate, hfr]
  · intro c i hc hi
    rw [hch c hc]
    unfold fillChannel
    rw [List.getD_eq_getElem?_getD,
      foldlSet_getElem (fun i => ((toInt16List data).getD (i * C + c) 0 : ℚ) / 32768)
        _ _ i (by rw [List.length_replicate, hfr]; exact hi) (by omega)]
    rfl

/-- Claim C1 is false as stated: a buffer whose byte length is not
divisible by `2 * C` never throws according to the claim, but the code
throws on two such inputs — the odd-length one-byte buffer `[0]` with
`C = 1` makes the `Int16Array` construction throw a `RangeError`, and
the even two-byte buffer `[1, 2]` with `C = 2` (no complete frame, so
the truncated frame count is 0) makes `createBuffer` throw a
`NotSupportedError`. -/
theorem pcm_truncation_counterexample :
    ([0] : List Nat).length % (2 * 1) ≠ 0 ∧
    decodeAudioData [0] 24000 1 =
      Except.error "RangeError: byte length of Int16Array should be a multiple of 2" ∧
    ([1, 2] : List Nat).length % (2 * 2) ≠ 0 ∧
    decodeAudioData [1, 2] 24000 2 =
      Except.error "NotSupportedError: createBuffer argument outside its supported range" :=
  ⟨by decide, rfl, by decide, rfl⟩

/-- Claim C1 (amended): for a buffer of EVEN byte length that is not a
multiple of `2 * C` but holds at least one complete frame
(`2 * C ≤ length`), with `1 ≤ C ≤ 32` and the sample rate inside
`createBuffer`'s supported 8000..96000 Hz range, `decodeAudioData`
succeeds without throwing and every channel holds exactly `⌊N / C⌋`
complete frames, `N = length / 2` the total sample count, discarding the
trailing partial frame.  Outside this: a buffer of odd byte length
throws a `RangeError` at the `Int16Array` construction, and an
even-length buffer with no complete frame (truncated frame count 0)
throws a `NotSupportedError` at `createBuffer`. -/
theorem pcm_truncation_amended (data : List Nat) (sr C : Nat)
    (hC : 0 < C) (hC32 : C ≤ 32) (hsrlo : 8000 ≤ sr) (hsrhi : sr ≤ 96000)
    (heven : data.length % 2 = 0) (_hpart : data.length % (2 * C) ≠ 0)
    (hframe : 2 * C ≤ data.length) :
    ∃ buf, decodeAudioData data sr C = Except.ok buf ∧
      buf.channels.length = C ∧
      ∀ c, c < C → (buf.channels.getD c []).length = data.length / 2 / C := by
  obtain ⟨buf, h1, _, _, h4, h5, _⟩ :=
    decodeAudioData_spec data (data.length / 2) sr C (by omega) hC hC32 hsrlo hsrhi
      (by omega)
  exact ⟨buf, h1, h4, h5⟩

/-- Witness for `pcm_truncation_amended`: a 6-byte buffer (3 samples)
with `C = 2` at 24000 Hz decodes to one frame per channel. -/
theorem pcm_truncation_amended_witness :
    0 < 2 ∧ 2 ≤ 32 ∧ 8000 ≤ 24000 ∧ 24000 ≤ 96000 ∧
    ([1, 2, 3, 4, 5, 6] : List Nat).length % 2 = 0 ∧
    ([1, 2, 3, 4, 5, 6] : List Nat).length % (2 * 2) ≠ 0 ∧
    2 * 2 ≤ ([1, 2, 3, 4, 5, 6] : List Nat).length ∧
    (∃ buf, decodeAudioData [1, 2, 3, 4, 5, 6] 24000 2 = Except.ok buf ∧
      buf.channels.length = 2 ∧
      ∀ c, c < 2 → (buf.channels.getD c []).length = [1, 2, 3, 4, 5, 6].length / 2 / 2) :=
  ⟨by decide, by decide, by decide, by decide, by decide, by decide, by decide,
    pcm_truncation_amended [1, 2, 3, 4, 5, 6] 24000 2 (by decide) (by decide)
      (by decide) (by decide) (by decide) (by decide) (by decide)⟩

/-- Claim C2 is false as stated: it asserts a decoded result of
`⌊N / C⌋` frames for EVERY buffer of `N` samples and channel count `C`,
but for the empty buffer (`N = 0`, `C = 1`) the truncated frame count is
0 and `createBuffer` throws a `NotSupportedError`, so no decoded result
is produced at all. -/
theorem pcm_decode_counterexample :
    ([] : List Nat).length = 2 * 0 ∧
    decodeAudioData [] 24000 1 =
      Except.error "NotSupportedError: createBuffer argument outside its supported range" :=
  ⟨rfl, rfl⟩

/-- Claim C2 (amended): for a buffer of `N` interleaved 16-bit
little-endian signed samples holding at least one complete frame
(`C ≤ N`), with channel count `1 ≤ C ≤ 32` and target sample rate inside
`createBuffer`'s supported 8000..96000 Hz range, `decodeAudioData`
produces `⌊N / C⌋` frames per channel, and for every channel `c < C` and
frame `i` the decoded sample is exactly `int16At (i * C + c) / 32768`,
with output channel order matching input interleave order (channel `c`
of the output reads interleave offset `c`); for `N < C` (in particular
the empty buffer) `createBuffer` instead throws on the zero frame
count. -/
theorem pcm_decode_amended (data : List Nat) (N sr C : Nat)
    (hlen : data.length = 2 * N) (hC : 0 < C) (hC32 : C ≤ 32)
    (hsrlo : 8000 ≤ sr) (hsrhi : sr ≤ 96000) (hNC : C ≤ N) :
    ∃ buf, decodeAudioData data sr C = Except.ok buf ∧
      buf.numberOfChannels = C ∧
      buf.channels.length = C ∧
      (∀ c, c < C → (buf.channels.getD c []).length = N / C) ∧
      (∀ c i, c < C → i < N / C →
        (buf.channels.getD c []).getD i 0 = (int16At data (i * C + c) : ℚ) / 32768) := by
  obtain ⟨buf, h1, _, h3, h4, h5, h6⟩ :=
    decodeAudioData_spec data N sr C hlen hC hC32 hsrlo hsrhi hNC
  exact ⟨buf, h1, h3, h4, h5, h6⟩

/-- Witness for `pcm_decode_amended` on a concrete 2-channel buffer of
two frames at 24000 Hz. -/
theorem pcm_decode_amended_witness :
    ([0, 0, 0, 128, 255, 127, 1, 0] : List Nat).length = 2 * 4 ∧
    0 < 2 ∧ 2 ≤ 32 ∧ 8000 ≤ 24000 ∧ 24000 ≤ 96000 ∧ 2 ≤ 4 ∧
    (∃ buf, decodeAudioData [0, 0, 0, 128, 255, 127, 1, 0] 24000 2 = Except.ok buf ∧
      buf.numberOfChannels = 2 ∧
      buf.channels.length = 2 ∧
      (∀ c, c < 2 → (buf.channels.getD c []).length = 4 / 2) ∧
      (∀ c i, c < 2 → i < 4 / 2 →
        (buf.channels.getD c []).getD i 0 =
          (int16At [0, 0, 0, 128, 255, 127, 1, 0] (i * 2 + c) : ℚ) / 32768)) :=
  ⟨by decide, by decide, by decide, by decide, by decide, by decide,
    pcm_decode_amended [0, 0, 0, 128, 255, 127, 1, 0] 4 24000 2 (by decide) (by decide)
      (by decide) (by decide) (by decide) (by decide)⟩

/-! ### Conversational request and conversation state (C7, C8) -/

/-- Claim C7: the conversational request built by
`chatWithStoryAssistant` from the `handleSend` history is the full
transcript reproduced as ordered turns, each mapped to
`{ role, parts: [text] }`, followed by the new user turn; every prior
turn carries only text parts (media is attached to the new user turn
only, never retroactively); the construction is pure — the history
appears verbatim and unchanged as the leading entries. -/
theorem chat_request_shape (msgs : List Message) (message : String)
    (base64Data mimeType : Option String) :
    chatWithStoryAssistantContents (handleSendHistory msgs) message base64Data mimeType =
      msgs.map (fun m => { role := roleString m.role
                           parts := [RequestPart.text m.text] }) ++
        [newUserTurn message base64Data mimeType] ∧
    (∀ c ∈ handleSendHistory msgs, ∀ p ∈ c.parts, p.isInline = false) ∧
    (newUserTurn message base64Data mimeType).role = "user" ∧
    RequestPart.text message ∈ (newUserTurn message base64Data mimeType).parts := by
  refine ⟨?_, ?_, ?_, ?_⟩
  · unfold chatWithStoryAssistantContents newUserTurn handleSendHistory
    by_cases h : (jsTruthy base64Data && jsTruthy mimeType) = true
    · rw [if_pos h, if_pos h]
    · rw [if_neg h, if_neg h]
  · intro c hc p hp
    unfold handleSendHistory at hc
    obtain ⟨m, _, rfl⟩ := List.mem_map.mp hc
    simp only [List.mem_singleton] at hp
    subst hp
    rfl
  · unfold newUserTurn
    split <;> rfl
  · unfold newUserTurn
    split <;> simp

/-- Witness for `chat_request_shape` at a concrete transcript, message
and attached media. -/
theorem chat_request_shape_witness :
    chatWithStoryAssistantContents (handleSendHistory initialMessages) "hi"
        (some "data:image/png;base64,QUJD") (some "image/png") =
      initialMessages.map (fun m => { role := roleString m.role
                                      parts := [RequestPart.text m.text] }) ++
        [newUserTurn "hi" (some "data:image/png;base64,QUJD") (some "image/png")] ∧
    (∀ c ∈ handleSendHistory initialMessages, ∀ p ∈ c.parts, p.isInline = false) ∧
    (newUserTurn "hi" (some "data:image/png;base64,QUJD") (some "image/png")).role = "user" ∧
    RequestPart.text "hi" ∈
      (newUserTurn "hi" (some "data:image/png;base64,QUJD") (some "image/png")).parts :=
  chat_request_shape initialMessages "hi" (some "data:image/png;base64,QUJD")
    (some "image/png")

/-- Claim C8: the conversation state starts with exactly one seeded MODEL
turn carrying the fixed greeting, and after appending user "a", model
"b", user "c", the transcript snapshot is exactly `[seed, a, b, c]` in
that order. -/
theorem chatbot_seed_and_ordering (a b c : String) :
    initialMessages = [{ role := Role.model, text := chatGreeting }] ∧
    appendUser (appendModel (appendUser initialMessages a) b) c =
      [{ role := Role.model, text := chatGreeting },
       { role := Role.user, text := a },
       { role := Role.model, text := b },
       { role := Role.user, text := c }] :=
  ⟨rfl, by simp [initialMessages, appendUser, appendModel]⟩

/-! ### Failure handling in `handleAnalyze` (C9) -/

/-- Claim C9: when the narrative-generation service call fails,
`handleAnalyze` catches the failure (the rejection is consumed by the
`catch` branch, which yields a state instead of rethrowing), updates the
paragraph in place to the placeholder error paragraph, and re-enables the
triggering control by clearing `isAnalyzing`. -/
theorem handleAnalyze_failure (s : StoryState) (e : Unit)
    (himg : jsTruthy s.image = true) (hmime : jsTruthy s.mediaMimeType = true) :
    (handleAnalyze s (Except.error e)).isAnalyzing = false ∧
    (handleAnalyze s (Except.error e)).paragraph = analyzeErrorParagraph := by
  constructor <;> simp [handleAnalyze, himg, hmime]

/-- Witness for `handleAnalyze_failure` at a concrete state. -/
theorem handleAnalyze_failure_witness :
    jsTruthy (some "data:image/png;base64,QUJD") = true ∧
    jsTruthy (some "image/png") = true ∧
    ((handleAnalyze
        { image := some "data:image/png;base64,QUJD"
          mediaMimeType := some "image/png"
          paragraph := "old"
          title := ""
          isAnalyzing := false
          isReading := false
          language := AppLanguage.English
          suggestions := Json.arr []
          isGeneratingSuggestions := false }
        (Except.error ())).isAnalyzing = false ∧
      (handleAnalyze
        { image := some "data:image/png;base64,QUJD"
          mediaMimeType := some "image/png"
          paragraph := "old"
          title := ""
          isAnalyzing := false
          isReading := false
          language := AppLanguage.English
          suggestions := Json.arr []
          isGeneratingSuggestions := false }
        (Except.error ())).paragraph = analyzeErrorParagraph) :=
  ⟨by decide, by decide, handleAnalyze_failure _ () (by decide) (by decide)⟩

/-! ### Suggestion response validation (C4) and request schema (C5) -/

/-- Claim C4 is false as stated: a non-array JSON response must yield an
empty sequence according to the claim, but the code returns whatever
`JSON.parse` produces — here the valid non-array response text `"true"`
is returned as the boolean `true`, not as an empty sequence. -/
theorem suggestions_validation_counterexample :
    generateStorySuggestionsResult (some "true") = Json.bool true ∧
    Json.bool true ≠ Json.arr [] :=
  ⟨rfl, fun h => Json.noConfusion h⟩

/-- Claim C4 (amended): `generateStorySuggestions` performs no schema
validation.  It returns the parsed value for every text that `JSON.parse`
accepts — in particular a valid JSON array of objects with both required
fields parses to the ordered sequence — and returns the empty sequence
`[]`, without propagating any error, exactly when `JSON.parse` throws
(with empty or missing text replaced by `"[]"` first); inputs that are
valid JSON but miss fields, have wrongly typed fields, or are not arrays
are returned as parsed, not replaced by an empty sequence. -/
theorem suggestions_validation_amended (text : Option String) :
    (∀ v, jsonParse (suggestionsEffectiveText text) = some v →
      generateStorySuggestionsResult text = v) ∧
    (jsonParse (suggestionsEffectiveText text) = none →
      generateStorySuggestionsResult text = Json.arr []) := by
  constructor
  · intro v hv
    unfold generateStorySuggestionsResult
    rw [hv]
  · intro hv
    unfold generateStorySuggestionsResult
    rw [hv]

/-- Witness for `suggestions_validation_amended`: a valid 1-element array
with both required fields parses to the ordered sequence, and invalid
JSON yields the empty array. -/
theorem suggestions_validation_amended_witness :
    (jsonParse (suggestionsEffectiveText
        (some "[\x7b\"type\":\"plot\",\"text\":\"x\"\x7d]")) =
      some (Json.arr [Json.obj [("type", Json.str "plot"), ("text", Json.str "x")]]) ∧
     generateStorySuggestionsResult (some "[\x7b\"type\":\"plot\",\"text\":\"x\"\x7d]") =
      Json.arr [Json.obj [("type", Json.str "plot"), ("text", Json.str "x")]]) ∧
    (jsonParse (suggestionsEffectiveText (some "not json")) = none ∧
     generateStorySuggestionsResult (some "not json") = Json.arr []) :=
  ⟨⟨rfl, (suggestions_validation_amended
      (some "[\x7b\"type\":\"plot\",\"text\":\"x\"\x7d]")).1 _ rfl⟩,
   ⟨rfl, (suggestions_validation_amended (some "not json")).2 rfl⟩⟩

/-- Claim C5 is false as stated: the schema-constrained suggestion request
does not require fields `kind` and `text` — the required fields of the
built schema are `type` and `text`. -/
theorem suggestion_schema_counterexample :
    generateStorySuggestionsConfig.responseSchema.items.required = ["type", "text"] ∧
    generateStorySuggestionsConfig.responseSchema.items.required ≠ ["kind", "text"] :=
  ⟨rfl, by decide⟩

/-- Claim C5 (amended): the suggestion request asks for
schema-constrained JSON output (`responseMimeType "application/json"`)
shaped as an ordered sequence (ARRAY) of OBJECTs whose two required
fields are `type` and `text`, both STRING-typed; the constraint that
`type` be one of plot/character/setting appears only in the
human-readable description of the `type` property (and, per C4, parsed
suggestions are not locally validated to carry it). -/
theorem suggestion_schema_amended :
    generateStorySuggestionsConfig.responseMimeType = "application/json" ∧
    generateStorySuggestionsConfig.responseSchema.type = SchemaType.ARRAY ∧
    generateStorySuggestionsConfig.responseSchema.items.type = SchemaType.OBJECT ∧
    generateStorySuggestionsConfig.responseSchema.items.required = ["type", "text"] ∧
    generateStorySuggestionsConfig.responseSchema.items.properties.map Prod.fst =
      ["type", "text"] ∧
    (generateStorySuggestionsConfig.responseSchema.items.properties.all
      (fun p => p.2.type == SchemaType.STRING)) = true ∧
    (generateStorySuggestionsConfig.responseSchema.items.properties.getD 0
        ("", { type := SchemaType.STRING, description := none })).2.description =
      some "Must be \x27plot\x27, \x27character\x27, or \x27setting\x27" :=
  ⟨rfl, rfl, rfl, rfl, rfl, rfl, rfl⟩

/-! ### Media data extraction (C10) -/

theorem jsSplitAux_get0 (sep : Char) :
    ∀ (l acc : List Char),
      (jsSplitAux sep l acc).get? 0 =
        some (acc.reverse ++ l.takeWhile (fun c => c ≠ sep)) := by
  intro l
  induction l with
  | nil => intro acc; simp [jsSplitAux]
  | cons c rest ih =>
    intro acc
    by_cases h : c = sep
    · subst h
      simp [jsSplitAux, List.takeWhile_cons]
    · rw [jsSplitAux, if_neg h, ih (c :: acc)]
      simp [List.takeWhile_cons, h]

theorem jsSplitAux_not_mem (sep : Char) :
    ∀ (l acc : List Char), sep ∉ l → jsSplitAux sep l acc = [acc.reverse ++ l] := by
  intro l
  induction l with
  | nil => intro acc _; simp [jsSplitAux]
  | cons c rest ih =>
    intro acc h
    have hc : ¬ c = sep := fun e => h (e ▸ List.mem_cons_self c rest)
    rw [jsSplitAux, if_neg hc, ih (c :: acc) (fun hm => h (List.mem_cons_of_mem c hm))]
    simp

theorem jsSplitAux_mem (sep : Char) :
    ∀ (l acc : List Char), sep ∈ l →
      jsSplitAux sep l acc =
        (acc.reverse ++ l.takeWhile (fun c => c ≠ sep)) ::
          jsSplitAux sep ((l.dropWhile (fun c => c ≠ sep)).tail) [] := by
  intro l
  induction l with
  | nil => intro acc h; cases h
  | cons c rest ih =>
    intro acc h
    by_cases hc : c = sep
    · subst hc
      simp [jsSplitAux, List.takeWhile_cons, List.dropWhile_cons]
    · have hr : sep ∈ rest := by
        rcases List.mem_cons.mp h with h1 | h1
        · exact absurd h1.symm hc
        · exact h1
      simp [jsSplitAux, hc, List.takeWhile_cons, List.dropWhile_cons, ih _ hr]

/-- What `split(',')[1]` actually extracts: the segment between the first
and the second comma (the remainder when there is no second comma), and
`none` when there is no comma at all. -/
theorem dataField_eq (s : String) :
    dataField s =
      if ',' ∈ s.toList then
        some (String.mk (((s.toList.dropWhile (fun c => c ≠ ',')).tail).takeWhile
          (fun c => c ≠ ',')))
      else none := by
  unfold dataField jsSplit
  by_cases h : ',' ∈ s.toList
  · rw [if_pos h, jsSplitAux_mem ',' s.toList [] h]
    simp only [List.map_cons, List.get?]
    rw [List.get?_map, jsSplitAux_get0]
    simp
  · rw [if_neg h, jsSplitAux_not_mem ',' s.toList [] h]
    simp

/-- Claim C10 is false as stated: for the media string `"a,b,c"` the
embedded data is `"b"` — the segment between the first and second commas
— not the substring `"b,c"` after the first comma that the claim
describes (`claimedDataField` follows the claim wording). -/
theorem media_data_counterexample :
    generateStoryFromMediaParts "a,b,c" "image/png" "English" =
      [RequestPart.inlineData "image/png" (some "b"),
       RequestPart.text (generateStoryFromMediaPrompt "image/png" "English")] ∧
    claimedDataField "a,b,c" = some "b,c" ∧
    dataField "a,b,c" ≠ claimedDataField "a,b,c" := by
  refine ⟨?_, by decide, by decide⟩
  unfold generateStoryFromMediaParts
  have h : dataField "a,b,c" = some "b" := by decide
  rw [h]

/-- Claim C10 (amended): for every media-bearing request built by
`generateStoryFromMedia`, `generateStorySuggestions` or
`chatWithStoryAssistant`, the embedded inline media data is
`split(',')[1]` of the input media string: the segment between its first
and second commas (the whole remainder when there is no second comma),
and JS `undefined` — rather than the original string — when the string
contains no comma. -/
theorem media_data_amended (s mime message paragraph lang : String)
    (hs : jsTruthy (some s) = true) (hmime : jsTruthy (some mime) = true) :
    generateStoryFromMediaParts s mime lang =
      [RequestPart.inlineData mime (dataField s),
       RequestPart.text (generateStoryFromMediaPrompt mime lang)] ∧
    generateStorySuggestionsParts (some s) (some mime) paragraph lang =
      [RequestPart.inlineData mime (dataField s),
       RequestPart.text (suggestionPrompt (some mime) paragraph lang)] ∧
    (∀ history, chatWithStoryAssistantContents history message (some s) (some mime) =
      history ++
        [{ role := "user"
           parts := [RequestPart.inlineData mime (dataField s),
                     RequestPart.text message] }]) ∧
    dataField s =
      (if ',' ∈ s.toList then
        some (String.mk (((s.toList.dropWhile (fun c => c ≠ ',')).tail).takeWhile
          (fun c => c ≠ ',')))
      else none) := by
  have hb : (jsTruthy (some s) && jsTruthy (some mime)) = true := by
    rw [hs, hmime]; rfl
  refine ⟨rfl, ?_, ?_, dataField_eq s⟩
  · unfold generateStorySuggestionsParts
    rw [if_pos hb]
    rfl
  · intro history
    unfold chatWithStoryAssistantContents
    rw [if_pos hb]
    rfl

/-- Witness for `media_data_amended` at concrete inputs (a real data URL
with one comma). -/
theorem media_data_amended_witness :
    jsTruthy (some "data:image/png;base64,QUJD") = true ∧
    jsTruthy (some "image/png") = true ∧
    (generateStoryFromMediaParts "data:image/png;base64,QUJD" "image/png" "English" =
      [RequestPart.inlineData "image/png" (dataField "data:image/png;base64,QUJD"),
       RequestPart.text (generateStoryFromMediaPrompt "image/png" "English")] ∧
     generateStorySuggestionsParts (some "data:image/png;base64,QUJD") (some "image/png")
        "p" "English" =
      [RequestPart.inlineData "image/png" (dataField "data:image/png;base64,QUJD"),
       RequestPart.text (suggestionPrompt (some "image/png") "p" "English")] ∧
     (∀ history,
        chatWithStoryAssistantContents history "hi" (some "data:image/png;base64,QUJD")
            (some "image/png") =
          history ++
            [{ role := "user"
               parts := [RequestPart.inlineData "image/png"
                           (dataField "data:image/png;base64,QUJD"),
                         RequestPart.text "hi"] }]) ∧
     dataField "data:image/png;base64,QUJD" =
      (if ',' ∈ "data:image/png;base64,QUJD".toList then
        some (String.mk ((("data:image/png;base64,QUJD".toList.dropWhile
            (fun c => c ≠ ',')).tail).takeWhile (fun c => c ≠ ',')))
      else none)) :=
  ⟨by decide, by decide,
    media_data_amended "data:image/png;base64,QUJD" "image/png" "hi" "p" "English"
      (by decide) (by decide)⟩

/-! ### Playback exclusivity (C6) -/

theorem narrInv_init (p : Bool) : NarrInv (narrInit p) := by
  refine ⟨?_, rfl, ?_, ?_, ?_⟩ <;> simp [narrInit]

theorem narrInv_step (s : NarrState) (e : NarrEvent) (hinv : NarrInv s) :
    NarrInv (narrStep s e) := by
  obtain ⟨h1, h2, h3, h4, h5⟩ := hinv
  cases e with
  | click =>
    simp only [narrStep]
    split
    · exact ⟨h1, h2, h3, h4, h5⟩
    · rename_i hcond
      have hir : s.isReading = false := by
        revert hcond
        cases s.isReading <;> simp
      have hpl : s.playing = [] := h3 hir
      refine ⟨fun _ => ⟨rfl, hpl⟩, h2, ?_, ?_, ?_⟩
      · intro hf
        exact absurd (hf : (true : Bool) = false) (by simp)
      · intro x hx
        have hx2 : x ∈ s.playing := hx
        rw [hpl] at hx2
        cases hx2
      · show s.playing.length ≤ 1
        exact h5
  | resolve =>
    simp only [narrStep]
    split
    · exact ⟨h1, h2, h3, h4, h5⟩
    · rename_i hcond
      have hin : s.inflight = true := by
        revert hcond
        cases s.inflight <;> simp
      obtain ⟨hir, hpl⟩ := h1 hin
      have hmain : NarrInv
          { s with playing := s.playing ++ [s.nextId]
                   audioSource := some s.nextId
                   nextId := s.nextId + 1
                   inflight := false } := by
        refine ⟨?_, h2, ?_, ?_, ?_⟩
        · intro hf
          exact absurd (hf : (false : Bool) = true) (by simp)
        · intro hf
          exact absurd (hf : s.isReading = false) (by rw [hir]; simp)
        · intro x hx
          have hx2 : x ∈ s.playing ++ [s.nextId] := hx
          rw [hpl] at hx2
          simp only [List.nil_append, List.mem_singleton] at hx2
          subst hx2
          rfl
        · show (s.playing ++ [s.nextId]).length ≤ 1
          rw [hpl]
          simp
      cases hsrc : s.audioSource with
      | none => exact hmain
      | some h0 =>
        have hnm : h0 ∉ s.playing := by rw [hpl]; simp
        simp only [if_neg hnm]
        exact hmain
  | ended h =>
    simp only [narrStep]
    split
    · rename_i hmem
      have hpl : s.playing = [h] := by
        cases hp : s.playing with
        | nil => rw [hp] at hmem; cases hmem
        | cons a t =>
          cases ht : t with
          | nil =>
            rw [hp, ht] at hmem
            simp only [List.mem_singleton] at hmem
            subst hmem
            rfl
          | cons b t2 =>
            rw [hp, ht] at h5
            simp at h5
      have hinf : s.inflight = false := by
        by_contra hx
        have hx2 : s.inflight = true := by
          revert hx
          cases s.inflight <;> simp
        have := (h1 hx2).2
        rw [this] at hmem
        cases hmem
      refine ⟨?_, h2, ?_, ?_, ?_⟩
      · intro hf
        exact absurd (hf : s.inflight = true) (by rw [hinf]; simp)
      · intro _
        show s.playing.erase h = []
        rw [hpl, List.erase_cons_head]
      · intro x hx
        have hx2 : x ∈ s.playing.erase h := hx
        rw [hpl, List.erase_cons_head] at hx2
        cases hx2
      · show (s.playing.erase h).length ≤ 1
        rw [hpl, List.erase_cons_head]
        simp
    · exact ⟨h1, h2, h3, h4, h5⟩
  | reject =>
    simp only [narrStep]
    split
    · exact ⟨h1, h2, h3, h4, h5⟩
    · rename_i hcond
      have hin : s.inflight = true := by
        revert hcond
        cases s.inflight <;> simp
      have hpl : s.playing = [] := (h1 hin).2
      refine ⟨?_, h2, fun _ => hpl, ?_, ?_⟩
      · intro hf
        exact absurd (hf : (false : Bool) = true) (by simp)
      · intro x hx
        have hx2 : x ∈ s.playing := hx
        rw [hpl] at hx2
        cases hx2
      · show s.playing.length ≤ 1
        exact h5
  | flush =>
    simp only [narrStep, h2]
    exact ⟨h1, h2, h3, h4, h5⟩

theorem narr_foldl_inv :
    ∀ (evs : List NarrEvent) (s : NarrState), NarrInv s → NarrInv (evs.foldl narrStep s)
  | [], _, h => h
  | e :: rest, s, h => narr_foldl_inv rest (narrStep s e) (narrInv_step s e h)

/-- Claim C6 is false as stated: with playback A (handle 0) active, a
second `play` invocation before A completes is ignored by the
`isReading` guard — the state is unchanged, no handle B is ever created
or started (`nextId` stays 1), and A remains the single active handle —
so the claimed outcome (A stopped before B starts, B the one remaining
active handle) does not occur. -/
theorem playback_exclusivity_counterexample :
    (narrRun true [NarrEvent.click, NarrEvent.resolve]).playing = [0] ∧
    (narrRun true [NarrEvent.click, NarrEvent.resolve]).isReading = true ∧
    narrRun true [NarrEvent.click, NarrEvent.resolve, NarrEvent.click] =
      narrRun true [NarrEvent.click, NarrEvent.resolve] ∧
    (narrRun true [NarrEvent.click, NarrEvent.resolve, NarrEvent.click]).nextId = 1 ∧
    (narrRun true [NarrEvent.click, NarrEvent.resolve, NarrEvent.click]).playing = [0] := by
  refine ⟨by decide, by decide, by decide, by decide, by decide⟩

/-- Claim C6 (amended): playback exclusivity is enforced by rejection,
not preemption — on every reachable state at most one source is playing,
and while a playback is active (`isReading` set) a further `play`
invocation is a no-op that leaves the state (including the active
handle) unchanged; a playing source is thus never stopped by a later
`play`, and only its own natural completion signal ever fires
(`pendingEnded` stays empty, per the invariant). -/
theorem playback_exclusivity_amended (p : Bool) (evs : List NarrEvent) :
    (narrRun p evs).playing.length ≤ 1 ∧
    (narrRun p evs).pendingEnded = [] ∧
    ((narrRun p evs).isReading = true →
      narrStep (narrRun p evs) NarrEvent.click = narrRun p evs) := by
  have hinv := narr_foldl_inv evs (narrInit p) (narrInv_init p)
  refine ⟨hinv.2.2.2.2, hinv.2.1, ?_⟩
  intro hir
  simp [narrStep, hir]

/-- Witness for `playback_exclusivity_amended` on the concrete trace
click-resolve (A started and playing). -/
theorem playback_exclusivity_amended_witness :
    (narrRun true [NarrEvent.click, NarrEvent.resolve]).playing.length ≤ 1 ∧
    (narrRun true [NarrEvent.click, NarrEvent.resolve]).pendingEnded = [] ∧
    ((narrRun true [NarrEvent.click, NarrEvent.resolve]).isReading = true →
      narrStep (narrRun true [NarrEvent.click, NarrEvent.resolve]) NarrEvent.click =
        narrRun true [NarrEvent.click, NarrEvent.resolve]) :=
  playback_exclusivity_amended true [NarrEvent.click, NarrEvent.resolve]

/-! ### Base64 round-trip (C3) -/

theorem encChar_props :
    ∀ i : Fin 64, sextetOf (encChar i.val) = some i.val ∧
      isB64Ws (encChar i.val) = false ∧ encChar i.val ≠ '=' := by decide

theorem encChar_sextet {n : Nat} (h : n < 64) : sextetOf (encChar n) = some n :=
  (encChar_props ⟨n, h⟩).1

theorem encChar_no_ws {n : Nat} (h : n < 64) : isB64Ws (encChar n) = false :=
  (encChar_props ⟨n, h⟩).2.1

theorem encChar_ne_eq {n : Nat} (h : n < 64) : encChar n ≠ '=' :=
  (encChar_props ⟨n, h⟩).2.2

theorem encode_eq_body_pad :
    ∀ b : List Nat, encode b = bodyChars b ++ List.replicate (padCount b) '='
  | [] => rfl
  | [_] => rfl
  | [_, _] => rfl
  | a :: b :: c :: rest => by
    simp only [encode, bodyChars, padCount, encode_eq_body_pad rest, List.cons_append]

theorem bodyChars_length :
    ∀ b : List Nat, ((bodyChars b).length + padCount b) % 4 = 0 ∧
      padCount b ≤ 2 ∧ (bodyChars b).length % 4 ≠ 1
  | [] => by simp [bodyChars, padCount]
  | [_] => by simp [bodyChars, padCount]
  | [_, _] => by simp [bodyChars, padCount]
  | a :: b :: c :: rest => by
    have ih := bodyChars_length rest
    simp only [bodyChars, padCount, List.length_cons]
    omega

theorem bodyChars_mem :
    ∀ b : List Nat, (∀ x ∈ b, x < 256) →
      ∀ ch ∈ bodyChars b, ∃ n : Nat, n < 64 ∧ ch = encChar n
  | [], _, ch, hch => by cases hch
  | [a], hb, ch, hch => by
    have ha : a < 256 := hb a (by simp)
    simp only [bodyChars, List.mem_cons, List.not_mem_nil, or_false] at hch
    rcases hch with h | h
    · exact ⟨a / 4, by omega, h⟩
    · exact ⟨a % 4 * 16, by omega, h⟩
  | [a, b], hb, ch, hch => by
    have ha : a < 256 := hb a (by simp)
    have hb2 : b < 256 := hb b (by simp)
    simp only [bodyChars, List.mem_cons, List.not_mem_nil, or_false] at hch
    rcases hch with h | h | h
    · exact ⟨a / 4, by omega, h⟩
    · exact ⟨a % 4 * 16 + b / 16, by omega, h⟩
    · exact ⟨b % 16 * 4, by omega, h⟩
  | a :: b :: c :: rest, hb, ch, hch => by
    have ha : a < 256 := hb a (by simp)
    have hb2 : b < 256 := hb b (by simp)
    have hc : c < 256 := hb c (by simp)
    simp only [bodyChars, List.mem_cons] at hch
    rcases hch with h | h | h | h | h
    · exact ⟨a / 4, by omega, h⟩
    · exact ⟨a % 4 * 16 + b / 16, by omega, h⟩
    · exact ⟨b % 16 * 4 + c / 64, by omega, h⟩
    · exact ⟨c % 64, by omega, h⟩
    · exact bodyChars_mem rest (fun x hx => hb x (by simp [hx])) ch h

theorem bodyChars_no_ws (b : List Nat) (hb : ∀ x ∈ b, x < 256) :
    ∀ ch ∈ bodyChars b, isB64Ws ch = false := by
  intro ch hch
  obtain ⟨n, hn, rfl⟩ := bodyChars_mem b hb ch hch
  exact encChar_no_ws hn

theorem bodyChars_last_ne_eq (b : List Nat) (hb : ∀ x ∈ b, x < 256) :
    (bodyChars b).getLast? ≠ some '=' := by
  cases hbc : (bodyChars b).getLast? with
  | none => simp
  | some ch =>
    have hch : ch ∈ bodyChars b := List.mem_of_mem_getLast? hbc
    obtain ⟨n, hn, rfl⟩ := bodyChars_mem b hb ch hch
    simp [encChar_ne_eq hn]

theorem bodyChars_map_sextet :
    ∀ b : List Nat, (∀ x ∈ b, x < 256) →
      (bodyChars b).map (fun c => (sextetOf c).getD 0) = bodySextets b
  | [], _ => rfl
  | [a], hb => by
    have ha : a < 256 := hb a (by simp)
    simp [bodyChars, bodySextets, encChar_sextet (show a / 4 < 64 by omega),
      encChar_sextet (show a % 4 * 16 < 64 by omega)]
  | [a, b], hb => by
    have ha : a < 256 := hb a (by simp)
    have hb2 : b < 256 := hb b (by simp)
    simp [bodyChars, bodySextets, encChar_sextet (show a / 4 < 64 by omega),
      encChar_sextet (show a % 4 * 16 + b / 16 < 64 by omega),
      encChar_sextet (show b % 16 * 4 < 64 by omega)]
  | a :: b :: c :: rest, hb => by
    have ha : a < 256 := hb a (by simp)
    have hb2 : b < 256 := hb b (by simp)
    have hc : c < 256 := hb c (by simp)
    have ih := bodyChars_map_sextet rest (fun x hx => hb x (by simp [hx]))
    simp [bodyChars, bodySextets, encChar_sextet (show a / 4 < 64 by omega),
      encChar_sextet (show a % 4 * 16 + b / 16 < 64 by omega),
      encChar_sextet (show b % 16 * 4 + c / 64 < 64 by omega),
      encChar_sextet (show c % 64 < 64 by omega), ih]

theorem bodyChars_all_some :
    ∀ b : List Nat, (∀ x ∈ b, x < 256) →
      (bodyChars b).all (fun c => (sextetOf c).isSome) = true
  | [], _ => rfl
  | [a], hb => by
    have ha : a < 256 := hb a (by simp)
    simp [bodyChars, encChar_sextet (show a / 4 < 64 by omega),
      encChar_sextet (show a % 4 * 16 < 64 by omega)]
  | [a, b], hb => by
    have ha : a < 256 := hb a (by simp)
    have hb2 : b < 256 := hb b (by simp)
    simp [bodyChars, encChar_sextet (show a / 4 < 64 by omega),
      encChar_sextet (show a % 4 * 16 + b / 16 < 64 by omega),
      encChar_sextet (show b % 16 * 4 < 64 by omega)]
  | a :: b :: c :: rest, hb => by
    have ha : a < 256 := hb a (by simp)
    have hb2 : b < 256 := hb b (by simp)
    have hc : c < 256 := hb c (by simp)
    have ih := bodyChars_all_some rest (fun x hx => hb x (by simp [hx]))
    simp [bodyChars, encChar_sextet (show a / 4 < 64 by omega),
      encChar_sextet (show a % 4 * 16 + b / 16 < 64 by omega),
      encChar_sextet (show b % 16 * 4 + c / 64 < 64 by omega),
      encChar_sextet (show c % 64 < 64 by omega), ih]

theorem sextetsToBytes_body :
    ∀ b : List Nat, (∀ x ∈ b, x < 256) → sextetsToBytes (bodySextets b) = b
  | [], _ => rfl
  | [a], hb => by
    have ha : a < 256 := hb a (by simp)
    have hred : sextetsToBytes (bodySextets [a]) = [a / 4 * 4 + a % 4 * 16 / 16] := rfl
    rw [hred]
    simp only [List.cons.injEq, and_true]
    omega
  | [a, b], hb => by
    have ha : a < 256 := hb a (by simp)
    have hb2 : b < 256 := hb b (by simp)
    have hred : sextetsToBytes (bodySextets [a, b]) =
        [a / 4 * 4 + (a % 4 * 16 + b / 16) / 16,
         (a % 4 * 16 + b / 16) % 16 * 16 + b % 16 * 4 / 4] := rfl
    rw [hred]
    simp only [List.cons.injEq, and_true]
    refine ⟨by omega, by omega⟩
  | a :: b :: c :: rest, hb => by
    have ha : a < 256 := hb a (by simp)
    have hb2 : b < 256 := hb b (by simp)
    have hc : c < 256 := hb c (by simp)
    have ih := sextetsToBytes_body rest (fun x hx => hb x (by simp [hx]))
    simp only [bodySextets, sextetsToBytes, List.cons.injEq]
    refine ⟨by omega, by omega, by omega, ih⟩

theorem dropTrailingEq_body (b : List Nat) (hb : ∀ x ∈ b, x < 256) :
    dropTrailingEq (bodyChars b ++ List.replicate (padCount b) '=') = bodyChars b := by
  have hlast := bodyChars_last_ne_eq b hb
  have hpad : padCount b ≤ 2 := (bodyChars_length b).2.1
  have hcases : padCount b = 0 ∨ padCount b = 1 ∨ padCount b = 2 := by omega
  rcases hcases with h0 | h1 | h2
  · rw [h0]
    simp [dropTrailingEq, hlast]
  · rw [h1]
    have hrep : List.replicate 1 '=' = ['='] := rfl
    rw [hrep]
    simp [dropTrailingEq, List.getLast?_concat, List.dropLast_concat, hlast]
  · rw [h2]
    have hrep : List.replicate 2 '=' = ['='] ++ ['='] := rfl
    rw [hrep, ← List.append_assoc]
    simp [dropTrailingEq, List.getLast?_concat, List.dropLast_concat, hlast]

/-- Claim C3: for every byte sequence `b` — including the empty sequence
and arbitrary non-UTF8-safe byte patterns — `decode (encode b) = b`: the
btoa/atob pair used by the service is a binary-safe codec and the
round-trip restores the bytes exactly. -/
theorem decode_encode_roundtrip (b : List Nat) (hb : ∀ x ∈ b, x < 256) :
    decode (encode b) = some b := by
  simp only [decode, atob]
  rw [encode_eq_body_pad b]
  have hfilter : (bodyChars b ++ List.replicate (padCount b) '=').filter
      (fun c => !isB64Ws c) = bodyChars b ++ List.replicate (padCount b) '=' := by
    rw [List.filter_eq_self]
    intro ch hch
    rcases List.mem_append.mp hch with h | h
    · simp [bodyChars_no_ws b hb ch h]
    · rw [List.eq_of_mem_replicate h]
      decide
  rw [hfilter]
  have hlen0 : (bodyChars b ++ List.replicate (padCount b) '=').length % 4 = 0 := by
    rw [List.length_append, List.length_replicate]
    exact (bodyChars_length b).1
  rw [if_pos hlen0, dropTrailingEq_body b hb,
    if_neg (bodyChars_length b).2.2, if_pos (bodyChars_all_some b hb),
    bodyChars_map_sextet b hb, sextetsToBytes_body b hb]

/-- Witness for `decode_encode_roundtrip` on a concrete byte list with a
zero byte, a high byte and arbitrary values. -/
theorem decode_encode_roundtrip_witness :
    (∀ x ∈ ([0, 255, 16, 100] : List Nat), x < 256) ∧
    decode (encode [0, 255, 16, 100]) = some [0, 255, 16, 100] :=
  ⟨by decide, decode_encode_roundtrip [0, 255, 16, 100] (by decide)⟩
